import Mathlib

/-!
Verification of the `decode_event` lens module
(`src/bucket/decode_event/decode_event.rs`).

The module decodes blockchain event-log records against a stored ABI:
it matches the log's leading topic against Keccak-256 hashes of candidate
event signatures and decodes indexed parameters from topics and
non-indexed parameters from the packed `data` blob.

Shallow embedding conventions:
* JSON values (`serde_json::Value`) are modelled by `Json`;
  the input `HashMap<String, Value>` record is an association list `RecMap`.
* Machine bytes are `Nat` values `< 256`; 64-bit Keccak lanes are `Nat`
  values masked to `2^64`.
* Rust panics (out-of-bounds indexing / slicing, `unwrap()` on `None`)
  are modelled by `Option` (`none` = panic) in the helpers and by the
  `Outcome.abort` result at the `try_transform` boundary.
* `Result<StreamOption<Vec<u8>>, Box<dyn Error>>` is modelled by `Outcome`:
  `Outcome.ok r` is `Ok(Some(...))` carrying the record that gets
  serialized, `Outcome.nil` is `Ok(None)`, `Outcome.eos` is
  `Ok(EndOfStream)`, and `Outcome.moduleError msg` is `Err(e)` with
  `e.to_string() == msg`.
-/

/-- Model of `serde_json::Value`.  Numbers only ever flow through
`as_i64` in the source, so they are modelled as integers. -/
inductive Json : Type where
  | null : Json
  | bool : Bool → Json
  | num : Int → Json
  | str : String → Json
  | arr : List Json → Json
  | obj : List (String × Json) → Json
deriving Repr

/-- The input record `HashMap<String, serde_json::Value>`.  JSON objects
have unique keys, so an association list with replace-on-insert models
`HashMap` faithfully for lookup/insert. -/
abbrev RecMap := List (String × Json)

/-- Key lookup, `HashMap::get` (first binding wins). -/
def lookupRec : RecMap → String → Option Json
  | [], _ => none
  | (k', v) :: rest, k => if k' = k then some v else lookupRec rest k

/-- Insertion, `HashMap::insert`: replace the existing binding, else append. -/
def insertRec : RecMap → String → Json → RecMap
  | [], k, v => [(k, v)]
  | (k', v') :: rest, k, v =>
      if k' = k then (k, v) :: rest else (k', v') :: insertRec rest k v

/-- Indexing `item["key"]` on a `serde_json::Value`: yields `Null` for a
missing key or a non-object (it never panics, unlike `HashMap` indexing). -/
def jIndex (v : Json) (k : String) : Json :=
  match v with
  | .obj fs => (lookupRec fs k).getD Json.null
  | _ => Json.null

/-- The `Value::as_str` accessor. -/
def asStr : Json → Option String
  | .str s => some s
  | _ => none

/-- The `Value::as_array` accessor. -/
def asArray : Json → Option (List Json)
  | .arr xs => some xs
  | _ => none

/-- The `Value::as_bool` accessor. -/
def asBool : Json → Option Bool
  | .bool b => some b
  | _ => none

/-- The `Value::as_i64` accessor: an integer in the `i64` range. -/
def asI64 : Json → Option Int
  | .num n => if -(2 ^ 63) ≤ n ∧ n < 2 ^ 63 then some n else none
  | _ => none

/-- Option-valued map over a list (`Vec<_> = iter().map(...).collect()`
where the closure can panic, and similarly `hex` digit runs):
`none` as soon as `f` yields `none`. -/
def mapOpt (g : α → Option β) : List α → Option (List β)
  | [] => some []
  | x :: l => (g x).bind (fun b => (mapOpt g l).map (fun bs => b :: bs))

/-- Value of a hexadecimal digit character, accepting both cases
(as `hex::decode` and `u128::from_str_radix(_, 16)` do). -/
def hexDigit? (c : Char) : Option Nat :=
  if '0' ≤ c ∧ c ≤ '9' then some (c.toNat - '0'.toNat)
  else if 'a' ≤ c ∧ c ≤ 'f' then some (c.toNat - 'a'.toNat + 10)
  else if 'A' ≤ c ∧ c ≤ 'F' then some (c.toNat - 'A'.toNat + 10)
  else none

/-- Lowercase hex digit character for a value `< 16` (`hex::encode` and
`format!("{:x}")` produce lowercase). -/
def hexChar (n : Nat) : Char :=
  Char.ofNat (if n < 10 then n + '0'.toNat else n + 'a'.toNat - 10)

/-- Encoding as in `hex::encode`: each byte becomes two lowercase hex characters. -/
def hexEncode (bytes : List Nat) : String :=
  String.mk (bytes.foldr (fun b acc => hexChar (b / 16 % 16) :: hexChar (b % 16) :: acc) [])

/-- Decoding as in `hex::decode`, on the character list: pairs of hex digits; an odd
length or a non-hex character is an error (which the source `unwrap`s). -/
def hexPairs : List Char → Option (List Nat)
  | [] => some []
  | [_] => none
  | c1 :: c2 :: rest =>
      match hexDigit? c1 with
      | none => none
      | some h =>
          match hexDigit? c2 with
          | none => none
          | some l =>
              match hexPairs rest with
              | none => none
              | some t => some ((16 * h + l) :: t)

/-- Model of `str::trim_start_matches("0x")`: strip the two-character run `0x`
from the front repeatedly. -/
def trim0x : List Char → List Char
  | c1 :: c2 :: rest => if c1 = '0' ∧ c2 = 'x' then trim0x rest else c1 :: c2 :: rest
  | cs => cs

/-- Model of the single strip at line 192: strip a single leading `0x`. -/
def stripOnce0x (s : String) : String :=
  match s.data with
  | '0' :: 'x' :: rest => String.mk rest
  | _ => s

/-- Model of `str::ends_with("1")`: the last character is `'1'` (false on the
empty string). -/
def lastIs1 : List Char → Bool
  | [] => false
  | [c] => c = '1'
  | _ :: rest => lastIs1 rest

/-- A single leading `+` accepted by `u128::from_str_radix`. -/
def stripPlus : List Char → List Char
  | [] => []
  | c :: rest => if c = '+' then rest else c :: rest

/-- Model of `u128::from_str_radix(clean, 16)`: optional leading `+`, then one or
more hex digits; empty digits, a non-digit, or a value not fitting in
128 bits is an error (`none`). -/
def fromStrRadix16U128 (s : String) : Option Nat :=
  let cs := stripPlus s.data
  match mapOpt hexDigit? cs with
  | none => none
  | some ds =>
      if ds.isEmpty then none
      else
        let v := ds.foldl (fun a d => 16 * a + d) 0
        if v < 2 ^ 128 then some v else none

/-- The `decode_param` function (decode_event.rs lines 253-275).  Returns `none` where
the Rust function panics: the `"address"` arm slices `&clean[24..64]`,
which panics when `clean` is shorter than 64 bytes.  (Byte indices and
character indices coincide on the ASCII hex strings this function is fed;
the embedding slices characters.) -/
def decode_param (typ : String) (hex_data : String) : Option String :=
  let clean := String.mk (trim0x hex_data.data)
  if typ = "uint256" then
    some (match fromStrRadix16U128 clean with
          | some v => toString v
          | none => "0")
  else if typ = "address" then
    if 64 ≤ clean.data.length then
      some ("0x" ++ String.mk ((clean.data.drop 24).take 40))
    else none
  else if typ = "bool" then
    some (toString (lastIs1 clean.data))
  else if typ = "bytes32" then
    some ("0x" ++ clean)
  else
    some ("unsupported type: " ++ typ)

/-! ### Keccak-256 (the `sha3::Keccak256` digest used at lines 138-140)

Keccak with rate 1088 bits (136 bytes), capacity 512, output 256 bits and
the original Keccak `pad10*1` domain padding (first pad byte `0x01`).
Lanes are 64-bit words modelled as `Nat` masked to `2 ^ 64`; the state is a
list of 25 lanes, lane `(x, y)` at position `x + 5 * y`. -/

def mask64 : Nat := 2 ^ 64 - 1

/-- Rotate a 64-bit lane left by `n` (for `0 ≤ n < 64`). -/
def rotl64 (x n : Nat) : Nat :=
  ((x <<< n) ||| (x >>> (64 - n))) &&& mask64

/-- Lane `(x, y)` of the state. -/
def lane (s : List Nat) (x y : Nat) : Nat :=
  (s.get? (x + 5 * y)).getD 0

/-- Keccak θ step. -/
def keccakTheta (s : List Nat) : List Nat :=
  let c := (List.range 5).map
    (fun x => lane s x 0 ^^^ lane s x 1 ^^^ lane s x 2 ^^^ lane s x 3 ^^^ lane s x 4)
  let d := (List.range 5).map
    (fun x => ((c.get? ((x + 4) % 5)).getD 0) ^^^ rotl64 ((c.get? ((x + 1) % 5)).getD 0) 1)
  (List.range 25).map (fun i => ((s.get? i).getD 0) ^^^ ((d.get? (i % 5)).getD 0))

/-- Rotation offset `r[x][y]` for the lane at position `x + 5 * y`. -/
def rhoOffset : Nat → Nat
  | 1 => 1
  | 2 => 62
  | 3 => 28
  | 4 => 27
  | 5 => 36
  | 6 => 44
  | 7 => 6
  | 8 => 55
  | 9 => 20
  | 10 => 3
  | 11 => 10
  | 12 => 43
  | 13 => 25
  | 14 => 39
  | 15 => 41
  | 16 => 45
  | 17 => 15
  | 18 => 21
  | 19 => 8
  | 20 => 18
  | 21 => 2
  | 22 => 61
  | 23 => 56
  | 24 => 14
  | _ => 0

/-- Keccak ρ and π steps: `B[y, (2x+3y) mod 5] = rotl(A[x, y], r[x][y])`. -/
def keccakRhoPi (s : List Nat) : List Nat :=
  (List.range 5).foldl
    (fun b x =>
      (List.range 5).foldl
        (fun b y =>
          let j := y + 5 * ((2 * x + 3 * y) % 5)
          b.set j (rotl64 (lane s x y) (rhoOffset (x + 5 * y))))
        b)
    (List.replicate 25 0)

/-- Keccak χ step: `A[x, y] = B[x, y] xor ((not B[x+1, y]) and B[x+2, y])`. -/
def keccakChi (b : List Nat) : List Nat :=
  (List.range 25).map (fun i =>
    let x := i % 5
    let y := i / 5
    lane b x y ^^^ (((lane b ((x + 1) % 5) y) ^^^ mask64) &&& lane b ((x + 2) % 5) y))

/-- Keccak round constants (decimal renderings of the standard 64-bit
words `0x0000000000000001`, `0x0000000000008082`, ..). -/
def keccakRC : List Nat :=
  [1,
   32898,
   9223372036854808714,
   9223372039002292224,
   32907,
   2147483649,
   9223372039002292353,
   9223372036854808585,
   138,
   136,
   2147516425,
   2147483658,
   2147516555,
   9223372036854775947,
   9223372036854808713,
   9223372036854808579,
   9223372036854808578,
   9223372036854775936,
   32778,
   9223372039002259466,
   9223372039002292353,
   9223372036854808704,
   2147483649,
   9223372039002292232]

/-- The Keccak-f[1600] permutation: 24 rounds of θ, ρ, π, χ, ι. -/
def keccakF (s : List Nat) : List Nat :=
  keccakRC.foldl
    (fun s rc =>
      let b := keccakChi (keccakRhoPi (keccakTheta s))
      b.set 0 (((b.get? 0).getD 0) ^^^ rc))
    s

/-- A little-endian 64-bit lane from (up to) 8 bytes. -/
def bytesToLane (bs : List Nat) : Nat :=
  bs.foldr (fun b acc => b + 256 * acc) 0

/-- XOR a 136-byte rate block into the first 17 lanes of the state. -/
def xorBlock (s : List Nat) (block : List Nat) : List Nat :=
  (List.range 25).map (fun i =>
    if i < 17 then ((s.get? i).getD 0) ^^^ bytesToLane ((block.drop (8 * i)).take 8)
    else (s.get? i).getD 0)

/-- Keccak `pad10*1` padding to a multiple of 136 bytes, with the
original-Keccak domain byte `0x01` (as the `sha3::Keccak256` hasher uses,
distinct from SHA3-256's `0x06`). -/
def keccakPad (msg : List Nat) : List Nat :=
  let q := 136 - msg.length % 136
  if q = 1 then msg ++ [0x81]
  else msg ++ [0x01] ++ List.replicate (q - 2) 0 ++ [0x80]

/-- Absorb all rate blocks of the padded message. -/
def keccakAbsorb (padded : List Nat) : List Nat :=
  (List.range (padded.length / 136)).foldl
    (fun s j => keccakF (xorBlock s ((padded.drop (136 * j)).take 136)))
    (List.replicate 25 0)

/-- Little-endian bytes of a 64-bit lane. -/
def laneBytes (l : Nat) : List Nat :=
  (List.range 8).map (fun k => (l >>> (8 * k)) &&& 255)

/-- Keccak-256: absorb the padded message, squeeze the first 32 bytes. -/
def keccak256 (msg : List Nat) : List Nat :=
  let s := keccakAbsorb (keccakPad msg)
  (((List.range 4).map (fun j => laneBytes ((s.get? j).getD 0))).flatten)

/-- UTF-8 encoding of one character (`str::as_bytes`). -/
def utf8Char (c : Char) : List Nat :=
  let n := c.toNat
  if n < 0x80 then [n]
  else if n < 0x800 then
    [0xC0 ||| (n >>> 6), 0x80 ||| (n &&& 0x3F)]
  else if n < 0x10000 then
    [0xE0 ||| (n >>> 12), 0x80 ||| ((n >>> 6) &&& 0x3F), 0x80 ||| (n &&& 0x3F)]
  else
    [0xF0 ||| (n >>> 18), 0x80 ||| ((n >>> 12) &&& 0x3F),
     0x80 ||| ((n >>> 6) &&& 0x3F), 0x80 ||| (n &&& 0x3F)]

/-- Model of `str::as_bytes`: UTF-8 bytes of a string. -/
def utf8Bytes (s : String) : List Nat :=
  (s.data.map utf8Char).flatten

/-- Lines 138-140: `format!("0x{}", hex::encode(Keccak256(sig.as_bytes())))` —
the hashed signature compared against `topics[0]`. -/
def hashSigHex (sig : String) : String :=
  "0x" ++ hexEncode (keccak256 (utf8Bytes sig))

/-! ### The `try_transform` pipeline (decode_event.rs lines 75-251) -/

/-- Result of one `try_transform` call.
`ok r` = `Ok(Some(serde_json::to_vec(r)))`, `nil` = `Ok(None)`,
`eos` = `Ok(EndOfStream)`, `moduleError msg` = `Err(e)` with message `msg`,
`abort` = a Rust panic (out-of-bounds index/slice or failed `unwrap`). -/
inductive Outcome where
  | ok (record : RecMap) : Outcome
  | nil : Outcome
  | eos : Outcome
  | moduleError (msg : String) : Outcome
  | abort : Outcome
deriving Repr

/-- The `PARAMETERS` store (line 39) at the time of the call: either never
set, or set with ABI text whose `serde_json::from_str::<Vec<Value>>`
parse result is the carried `Option (List Json)` (`none` = parse error).
The parse itself is `serde_json`, external to the module; the embedding
takes its outcome. -/
inductive StoreState where
  | unset : StoreState
  | set (parsedAbi : Option (List Json)) : StoreState

/-- What `next()` handed to `try_transform` (lines 76-83), already
deserialized: a record, nil, or end of stream. -/
inductive InStream where
  | record (r : RecMap) : InStream
  | nil : InStream
  | eos : InStream

/-- Context threaded through the ABI loop: the strings extracted at
lines 85-104 (`tx_hash`, `block_number`, `topics`, `topic0`). -/
structure Ctx where
  tx : String
  blk : String
  topics : List String
  topic0 : String

/-- A decoded-argument object `json!({"name": .., "type": .., "value": ..})`
(`serde_json`'s map orders keys alphabetically, which `name`, `type`,
`value` already are). -/
def argObj3 (name typ value : String) : Json :=
  Json.obj [("name", Json.str name), ("type", Json.str typ), ("value", Json.str value)]

/-- A non-indexed placeholder `json!({"name": .., "type": ..})` pushed to
`indexed_items` (line 177). -/
def argObj2 (name typ : String) : Json :=
  Json.obj [("name", Json.str name), ("type", Json.str typ)]

/-- Lines 143-144: `input.insert("hash", tx)` then `input.insert("block", blk)`. -/
def insHB (r : RecMap) (tx blk : String) : RecMap :=
  insertRec (insertRec r "hash" (Json.str tx)) "block" (Json.str blk)

/-- The topic walk (lines 155-183): for each input parameter, in
declaration order, consume `topics[topic_index]` if it is indexed and
decode it; otherwise push a `{name, type}` placeholder; either way
increment `topic_index` (which starts at 1).
Accumulators: `args` = `arguments`, `nonIdx` = `indexed_items`. -/
def topicsLoop (topics : List String) :
    List Json → Nat → List Json → List Json → Except Outcome (List Json × List Json)
  | [], _, args, nonIdx => .ok (args, nonIdx)
  | item :: rest, idx, args, nonIdx =>
      let name := (asStr (jIndex item "name")).getD ""
      let typ := (asStr (jIndex item "type")).getD ""
      if (asBool (jIndex item "indexed")).getD false then
        match topics.get? idx with
        | none => .error .abort
        | some topic =>
            match decode_param typ topic with
            | none => .error .abort
            | some value =>
                topicsLoop topics rest (idx + 1) (args ++ [argObj3 name typ value]) nonIdx
      else
        topicsLoop topics rest (idx + 1) args (nonIdx ++ [argObj2 name typ])

/-- The raw-extraction stage for one non-indexed parameter (the `match typ`
at lines 199-226): slice the 32-byte slot at `offset` out of `data_bytes`.
`none` models the Rust slice/index panic when the slot runs past the end
of `data_bytes`. -/
def rawDataValue (typ : String) (bytes : List Nat) (offset : Nat) : Option String :=
  if typ = "address" then
    if offset + 32 ≤ bytes.length then
      some ("0x" ++ hexEncode ((bytes.drop (offset + 12)).take 20))
    else none
  else if typ = "uint256" then
    if offset + 32 ≤ bytes.length then
      some ("0x" ++ hexEncode ((bytes.drop offset).take 32))
    else none
  else if typ = "bool" then
    match bytes.get? (offset + 31) with
    | none => none
    | some b => some (if b ≠ 0 then "true" else "false")
  else if typ = "bytes32" then
    if offset + 32 ≤ bytes.length then
      some ("0x" ++ hexEncode ((bytes.drop offset).take 32))
    else none
  else
    some ("unsupported type: " ++ typ)

/-- The data walk (lines 195-238): for each `indexed_items` entry (the
non-indexed parameters, in declaration order) extract the raw slot value,
re-decode it with `decode_param`, push the argument, advance `offset`
by 32. -/
def dataLoop (bytes : List Nat) :
    List Json → Nat → List Json → Except Outcome (List Json)
  | [], _, args => .ok args
  | item :: rest, offset, args =>
      match asStr (jIndex item "name") with
      | none => .error .abort
      | some name =>
          match asStr (jIndex item "type") with
          | none => .error .abort
          | some typ =>
              match rawDataValue typ bytes offset with
              | none => .error .abort
              | some value =>
                  match decode_param typ value with
                  | none => .error .abort
                  | some val =>
                      dataLoop bytes rest (offset + 32) (args ++ [argObj3 name typ val])

/-- The matched-event branch (lines 148-241): insert `signature`, decode
topics, read and hex-decode `data`, decode the non-indexed slots, insert
`arguments`. -/
def decodeMatched (ctx : Ctx) (sig : String) (inputs : List Json) (record : RecMap) :
    Except Outcome RecMap :=
  let record := insertRec record "signature" (Json.str sig)
  match topicsLoop ctx.topics inputs 1 [] [] with
  | .error e => .error e
  | .ok (args, nonIdx) =>
      match lookupRec record "data" with
      | none => .error .abort
      | some v =>
          match asStr v with
          | none => .error .abort
          | some dataStr =>
              match hexPairs (stripOnce0x dataStr).data with
              | none => .error .abort
              | some dataBytes =>
                  match dataLoop dataBytes nonIdx 0 args with
                  | .error e => .error e
                  | .ok args2 => .ok (insertRec record "arguments" (Json.arr args2))

/-- The test `item["type"] == "event"` (line 121): `serde_json::Value`'s equality
with `&str` holds exactly for a string value with those contents. -/
def isEvent (item : Json) : Bool :=
  match jIndex item "type" with
  | .str s => s == "event"
  | _ => false

/-- The ABI loop (lines 119-244): filter items of type `"event"`, build
the canonical signature from the name and all declared input types
(lines 122-135), hash it, insert `hash`/`block`, and on a hash match
against `topics[0]` decode the event and break. -/
def abiLoop (ctx : Ctx) : List Json → RecMap → Except Outcome RecMap
  | [], record => .ok record
  | item :: rest, record =>
      if isEvent item then
        match asStr (jIndex item "name") with
        | none => .error .abort
        | some name =>
            let inputs := (asArray (jIndex item "inputs")).getD []
            match mapOpt (fun i => asStr (jIndex i "type")) inputs with
            | none => .error .abort
            | some types =>
                let sig := name ++ "(" ++ String.intercalate "," types ++ ")"
                let record := insHB record ctx.tx ctx.blk
                if hashSigHex sig == ctx.topic0 then
                  decodeMatched ctx sig inputs record
                else
                  abiLoop ctx rest record
      else abiLoop ctx rest record

/-- Lines 85-104: extract `tx_hash`, `block_number`, `topics`, `topic0`
from the input record.  `none` models the panics: `input[key]` on a
missing key, `as_array().unwrap()` on a non-array `topics`, per-element
`as_str().unwrap()`, and `&topics[0]` on an empty array.  The `as_str` /
`as_i64` defaults for `transactionHash` / `blockNumber` are
`unwrap_or_default`, not panics. -/
def readLogFields (r : RecMap) : Option (String × String × List String × String) :=
  match lookupRec r "transactionHash" with
  | none => none
  | some vtx =>
      match lookupRec r "blockNumber" with
      | none => none
      | some vbn =>
          match lookupRec r "topics" with
          | none => none
          | some vt =>
              match asArray vt with
              | none => none
              | some ts =>
                  match mapOpt asStr ts with
                  | none => none
                  | some topics =>
                      match topics.get? 0 with
                      | none => none
                      | some topic0 =>
                          some ((asStr vtx).getD "",
                                toString ((asI64 vbn).getD 0),
                                topics, topic0)

/-- The `try_transform` entry point (lines 75-251), as a function of the parameter-store
state and the deserialized input stream element. -/
def try_transform (store : StoreState) (input : InStream) : Outcome :=
  match input with
  | .nil => Outcome.nil
  | .eos => Outcome.eos
  | .record r =>
      match readLogFields r with
      | none => Outcome.abort
      | some (tx, blk, topics, topic0) =>
          match store with
          | .unset => Outcome.moduleError "Parameters have not been set."
          | .set none => Outcome.nil
          | .set (some items) =>
              match abiLoop ⟨tx, blk, topics, topic0⟩ items r with
              | .ok outRec => Outcome.ok outRec
              | .error e => e

/-! ### Derived descriptions of the matcher used to state the claims -/

/-- The declared input list of a definition (line 126,
`as_array().unwrap_or(&empty)`). -/
def inputsOf (item : Json) : List Json :=
  (asArray (jIndex item "inputs")).getD []

/-- The canonical signature `name(type1,type2,...)` of a definition, with
`getD` defaults where the loop would `unwrap` (they agree on well-formed
definitions). -/
def sigOfD (item : Json) : String :=
  ((asStr (jIndex item "name")).getD "") ++ "(" ++
    String.intercalate "," ((inputsOf item).map (fun i => (asStr (jIndex i "type")).getD "")) ++ ")"

/-- The `0x`-prefixed lowercase hex Keccak-256 hash of a definition's
canonical signature. -/
def hashedOf (item : Json) : String :=
  hashSigHex (sigOfD item)

/-- A definition is well formed when, if it is an event, its `name` is a
string and every declared input has a string `type` — exactly the fields
the ABI loop `unwrap`s for every event item it scans. -/
def wfItem (item : Json) : Bool :=
  !(isEvent item) ||
    ((asStr (jIndex item "name")).isSome &&
      (inputsOf item).all (fun i => (asStr (jIndex i "type")).isSome))

/-- All definitions of a parsed ABI are well formed. -/
def wfAbi (items : List Json) : Bool := items.all wfItem

/-- The Boolean match test used to describe the loop: an event-typed
definition whose hashed canonical signature equals `topics[0]`. -/
def matchesTopic0 (topic0 : String) (item : Json) : Bool :=
  isEvent item && (hashedOf item == topic0)

/-- Elements paired with their overall 0-based positions, starting at `k`. -/
def withPositions : Nat → List α → List (Nat × α)
  | _, [] => []
  | k, a :: l => (k, a) :: withPositions (k + 1) l

/-- Topic decoder stated the way spec §4.3 words it: the topic slot
consumed for an indexed parameter is `topics[1 + k]` where `k` is the
parameter's overall 0-based position in the declaration order (not an
indexed-only counter).  Used as the comparison point for the refinement
claim about the `topic_index` walk. -/
def topicsByPosition (topics : List String) :
    List (Nat × Json) → List Json → List Json → Except Outcome (List Json × List Json)
  | [], args, nonIdx => .ok (args, nonIdx)
  | (k, item) :: rest, args, nonIdx =>
      let name := (asStr (jIndex item "name")).getD ""
      let typ := (asStr (jIndex item "type")).getD ""
      if (asBool (jIndex item "indexed")).getD false then
        match topics.get? (1 + k) with
        | none => .error .abort
        | some topic =>
            match decode_param typ topic with
            | none => .error .abort
            | some value =>
                topicsByPosition topics rest (args ++ [argObj3 name typ value]) nonIdx
      else
        topicsByPosition topics rest args (nonIdx ++ [argObj2 name typ])

/-- Every character of `s` is a hex digit. -/
def allHexDigits (s : String) : Bool :=
  s.data.all (fun c => (hexDigit? c).isSome)

/-- The big-endian value of a hex-digit string (the accumulator fold of
`from_str_radix`). -/
def hexValOf (s : String) : Nat :=
  (s.data.map (fun c => (hexDigit? c).getD 0)).foldl (fun a d => 16 * a + d) 0

/-- Concrete fixture: a well-formed log record whose `topics[0]` is the
string `"nope"`, which no `0x`-prefixed signature hash can equal. -/
def exLog : RecMap :=
  [("transactionHash", Json.str "0xabc"),
   ("blockNumber", Json.num 7),
   ("topics", Json.arr [Json.str "nope"]),
   ("data", Json.str "0x")]

/-- Concrete fixture: an indexed `address` parameter declaration. -/
def exIndexedInput : Json :=
  Json.obj [("name", Json.str "from"), ("type", Json.str "address"),
            ("indexed", Json.bool true)]

/-- Concrete fixture: a well-formed event definition
`Transfer(address from indexed)`. -/
def exEventDef : Json :=
  Json.obj [("type", Json.str "event"), ("name", Json.str "Transfer"),
            ("inputs", Json.arr [exIndexedInput])]

/-- Concrete fixture: a non-indexed `uint256` placeholder as the data
walk receives it. -/
def exNonIdxUint : Json :=
  Json.obj [("name", Json.str "value"), ("type", Json.str "uint256")]

/-- Concrete fixture: the context extracted from `exLog`. -/
def exCtx : Ctx := ⟨"0xabc", "7", ["nope"], "nope"⟩

/-- Concrete fixture: 64 `f` digits, a `uint256` slot whose value
`16 ^ 64 - 1` exceeds `u128::MAX`. -/
def sFF : String :=
  "ffffffffffffffffffffffffffffffffffffffffffffffffffffffffffffffff"

/-! ### Record-map and `mapOpt` lemmas -/

theorem lookupRec_insertRec_self (r : RecMap) (k : String) (v : Json) :
    lookupRec (insertRec r k v) k = some v := by
  induction r with
  | nil => simp [insertRec, lookupRec]
  | cons p rest ih =>
      obtain ⟨k', v'⟩ := p
      by_cases h : k' = k
      · simp [insertRec, lookupRec, h]
      · simp [insertRec, lookupRec, h, ih]

theorem lookupRec_insertRec_ne (r : RecMap) (k k' : String) (v' : Json)
    (h : k' ≠ k) : lookupRec (insertRec r k' v') k = lookupRec r k := by
  induction r with
  | nil => simp [insertRec, lookupRec, h]
  | cons p rest ih =>
      obtain ⟨k0, v0⟩ := p
      by_cases h0 : k0 = k'
      · subst h0
        simp [insertRec, lookupRec, h]
      · simp only [insertRec, if_neg h0]
        by_cases h1 : k0 = k
        · simp [lookupRec, h1]
        · simp [lookupRec, h1, ih]

theorem insertRec_of_lookup_eq (r : RecMap) (k : String) (v : Json)
    (h : lookupRec r k = some v) : insertRec r k v = r := by
  induction r with
  | nil => simp [lookupRec] at h
  | cons p rest ih =>
      obtain ⟨k', v'⟩ := p
      by_cases h0 : k' = k
      · subst h0
        simp only [lookupRec, if_pos trivial, Option.some.injEq] at h
        subst h
        simp [insertRec]
      · simp only [lookupRec, if_neg h0] at h
        simp [insertRec, h0, ih h]

theorem insHB_idem (r : RecMap) (tx blk : String) :
    insHB (insHB r tx blk) tx blk = insHB r tx blk := by
  have hneq : "block" ≠ "hash" := by decide
  have h1 : lookupRec (insHB r tx blk) "hash" = some (Json.str tx) := by
    rw [insHB, lookupRec_insertRec_ne _ _ _ _ hneq, lookupRec_insertRec_self]
  have h2 : insertRec (insHB r tx blk) "hash" (Json.str tx) = insHB r tx blk :=
    insertRec_of_lookup_eq _ _ _ h1
  rw [insHB, h2]
  exact insertRec_of_lookup_eq _ _ _ (lookupRec_insertRec_self _ _ _)

theorem mapOpt_eq_some_map (f : α → Option β) (d : β) :
    ∀ l : List α, l.all (fun a => (f a).isSome) = true →
      mapOpt f l = some (l.map (fun a => (f a).getD d)) := by
  intro l
  induction l with
  | nil => intro _; rfl
  | cons a l ih =>
      intro h
      rw [List.all_cons, Bool.and_eq_true] at h
      obtain ⟨ha, hl⟩ := h
      obtain ⟨b, hb⟩ := Option.isSome_iff_exists.mp ha
      simp [mapOpt, hb, ih hl]

/-! ### Characterization of the ABI loop -/

/-- On a well-formed ABI, the loop of lines 119-244 finds the first
event-typed definition whose hashed canonical signature equals
`topics[0]` and decodes against it, stopping there; `hash`/`block` are
inserted as soon as the ABI holds at least one event definition, matched
or not. -/
theorem abiLoop_char (ctx : Ctx) :
    ∀ (items : List Json) (record : RecMap), wfAbi items = true →
      abiLoop ctx items record =
        match items.find? (matchesTopic0 ctx.topic0) with
        | some it => decodeMatched ctx (sigOfD it) (inputsOf it) (insHB record ctx.tx ctx.blk)
        | none =>
            .ok (if items.any isEvent then insHB record ctx.tx ctx.blk else record) := by
  intro items
  induction items with
  | nil => intro record _; simp [abiLoop, List.find?]
  | cons item rest ih =>
      intro record hwf
      rw [wfAbi, List.all_cons, Bool.and_eq_true] at hwf
      obtain ⟨hitem, hrest⟩ := hwf
      by_cases hE : isEvent item = true
      · rw [wfItem, hE] at hitem
        simp only [Bool.not_true, Bool.false_or, Bool.and_eq_true] at hitem
        obtain ⟨hname, htypes⟩ := hitem
        obtain ⟨nm, hnm⟩ := Option.isSome_iff_exists.mp hname
        have hmap := mapOpt_eq_some_map (fun i => asStr (jIndex i "type")) "" _ htypes
        have hsig : sigOfD item = nm ++ "(" ++ String.intercalate ","
              ((inputsOf item).map (fun i => (asStr (jIndex i "type")).getD "")) ++ ")" := by
          rw [sigOfD, hnm]
          rfl
        by_cases hM : (hashSigHex (sigOfD item) == ctx.topic0) = true
        · have hpred : matchesTopic0 ctx.topic0 item = true := by
            rw [matchesTopic0, hE, Bool.true_and, hashedOf]; exact hM
          rw [List.find?_cons_of_pos _ hpred]
          simp only [abiLoop, hE, if_true, hnm, inputsOf] at hmap ⊢
          simp only [hmap]
          rw [← inputsOf, ← hsig, if_pos hM]
        · have hpred : ¬ matchesTopic0 ctx.topic0 item = true := by
            rw [matchesTopic0, hE, Bool.true_and, hashedOf]; exact hM
          rw [List.find?_cons_of_neg _ hpred]
          simp only [abiLoop, hE, if_true, hnm, inputsOf] at hmap ⊢
          simp only [hmap]
          rw [← inputsOf, ← hsig, if_neg hM]
          rw [ih (insHB record ctx.tx ctx.blk) hrest]
          cases hf : rest.find? (matchesTopic0 ctx.topic0) with
          | some it' => simp [insHB_idem, inputsOf]
          | none =>
              simp only [List.any_cons, hE, Bool.true_or]
              cases ha : rest.any isEvent with
              | true => simp [ha, insHB_idem]
              | false => simp [ha]
      · have hE' : isEvent item = false := by
          cases h : isEvent item with
          | true => exact absurd h hE
          | false => rfl
        have hpred : ¬ matchesTopic0 ctx.topic0 item = true := by
          rw [matchesTopic0, hE']; simp
        rw [List.find?_cons_of_neg _ hpred]
        simp only [abiLoop, hE', Bool.false_eq_true, if_false]
        rw [ih record hrest]
        simp [List.any_cons, hE']

/-- The `topic_index` walk starting at `k + 1` is the positional decoder
on positions starting at `k`. -/
theorem topicsLoop_byPosition (topics : List String) :
    ∀ (inputs : List Json) (k : Nat) (args nonIdx : List Json),
      topicsLoop topics inputs (k + 1) args nonIdx =
        topicsByPosition topics (withPositions k inputs) args nonIdx := by
  intro inputs
  induction inputs with
  | nil => intro k args nonIdx; rfl
  | cons item rest ih =>
      intro k args nonIdx
      simp only [topicsLoop, withPositions, topicsByPosition]
      rw [Nat.add_comm 1 k]
      cases hob : (asBool (jIndex item "indexed")).getD false with
      | false => simp [hob, ih]
      | true =>
          simp only [hob, if_true]
          cases ht : topics.get? (k + 1) with
          | none => simp
          | some topic =>
              simp only
              cases hd : decode_param ((asStr (jIndex item "type")).getD "") topic with
              | none => simp
              | some v => simp [ih]

/-- No string with the two-character `0x` front equals `"nope"`. -/
theorem append_0x_ne_nope (t : String) : "0x" ++ t ≠ "nope" := by
  obtain ⟨cs⟩ := t
  intro h
  have hd := congrArg String.data h
  simp [String.data] at hd

/-- A hashed signature is `0x`-prefixed, hence never the fixture topic
`"nope"`. -/
theorem hashSigHex_ne_nope (sig : String) : hashSigHex sig ≠ "nope" :=
  append_0x_ne_nope _

set_option maxRecDepth 100000 in
/-- Sanity reference vector (spec §8): the Keccak-256 hash of the
canonical ERC-20 `Transfer` signature. -/
theorem hashSigHex_transfer :
    hashSigHex "Transfer(address,address,uint256)" =
      "0xddf252ad1be2c89b69c2b068fc378daa952ba7f163c4a11628f55a4df523b3ef" := by
  decide

/-! ### Claim theorems -/

/-- C1: on an ABI that parses as a list of (well-formed) definitions, the
decode loop's behavior is exactly that of finding the FIRST definition in
ABI order whose kind is `"event"` and whose canonical signature
`name(type1,type2,...)` over all inputs, Keccak-256-hashed and rendered
as `0x`-prefixed lowercase hex, equals `topics[0]` byte-for-byte;
matching stops at that first hit, and items past it never affect the
result. -/
theorem c1_first_event_match (ctx : Ctx) (items : List Json) (record : RecMap)
    (hwf : wfAbi items = true) :
    abiLoop ctx items record =
      match items.find? (matchesTopic0 ctx.topic0) with
      | some it => decodeMatched ctx (sigOfD it) (inputsOf it) (insHB record ctx.tx ctx.blk)
      | none =>
          .ok (if items.any isEvent then insHB record ctx.tx ctx.blk else record) :=
  abiLoop_char ctx items record hwf

/-- Witness for C1 at a concrete one-event ABI. -/
theorem c1_first_event_match_witness :
    wfAbi [exEventDef] = true ∧
      abiLoop exCtx [exEventDef] exLog =
        match [exEventDef].find? (matchesTopic0 exCtx.topic0) with
        | some it => decodeMatched exCtx (sigOfD it) (inputsOf it) (insHB exLog exCtx.tx exCtx.blk)
        | none =>
            .ok (if [exEventDef].any isEvent then insHB exLog exCtx.tx exCtx.blk else exLog) :=
  ⟨by decide, c1_first_event_match exCtx [exEventDef] exLog (by decide)⟩

/-- C2 (code bug): a `bool` slot whose last byte is the nonzero `0x02`
decodes to `"false"`, not true.  On the topic path `decode_param` tests
whether the hex string ends in the character `'1'`; on the data path the
raw stage correctly renders `"true"` for a nonzero last byte, but the
second `decode_param` pass re-reads that rendered string and yields
`"false"` even for a slot ending in `0x01`. -/
theorem c2_bool_last_byte_bug :
    decode_param "bool"
        "0x0000000000000000000000000000000000000000000000000000000000000002" =
      some "false" ∧
    rawDataValue "bool" (List.replicate 31 0 ++ [2]) 0 = some "true" ∧
    (rawDataValue "bool" (List.replicate 31 0 ++ [2]) 0).bind (decode_param "bool") =
      some "false" ∧
    (rawDataValue "bool" (List.replicate 31 0 ++ [1]) 0).bind (decode_param "bool") =
      some "false" :=
  ⟨by decide, by decide, by decide, by decide⟩

/-- C3 (code bug): decoding an `address` slot succeeds on the topic path,
but on the data path the raw stage renders `0x` plus 40 hex characters
and the second `decode_param` pass then slices `clean[24..64]` out of a
40-character string — an out-of-bounds panic (`none`), so decoding a
non-indexed `address` never succeeds. -/
theorem c3_address_data_path_bug :
    decode_param "address"
        "0x000000000000000000000000aaaaaaaaaaaaaaaaaaaaaaaaaaaaaaaaaaaaaaaa" =
      some "0xaaaaaaaaaaaaaaaaaaaaaaaaaaaaaaaaaaaaaaaa" ∧
    rawDataValue "address" (List.replicate 12 0 ++ List.replicate 20 0xaa) 0 =
      some "0xaaaaaaaaaaaaaaaaaaaaaaaaaaaaaaaaaaaaaaaa" ∧
    (rawDataValue "address" (List.replicate 12 0 ++ List.replicate 20 0xaa) 0).bind
        (decode_param "address") = none :=
  ⟨by decide, by decide, by decide⟩

/-- C6 (code bug): with fewer topics than the indexed parameters require,
the topic walk hits `topics[topic_index]` out of bounds and panics
(`abort`) instead of returning an `OutOfBounds` error; likewise the data
walk panics when `data_bytes` is shorter than 32 bytes per non-indexed
parameter. -/
theorem c6_out_of_bounds_aborts :
    topicsLoop ["0xdeadbeef"] [exIndexedInput] 1 [] [] = .error .abort ∧
    dataLoop [] [exNonIdxUint] 0 [] = .error .abort :=
  ⟨rfl, rfl⟩

/-- C8: for a declared type outside {address, uint256, bool, bytes32},
decoding never fails and yields exactly the literal
`"unsupported type: <type>"` — on the topic path (`decode_param`), on the
raw data stage, and on their data-path composition. -/
theorem c8_unsupported_type (typ hexData : String) (bytes : List Nat) (offset : Nat)
    (h1 : typ ≠ "address") (h2 : typ ≠ "uint256") (h3 : typ ≠ "bool")
    (h4 : typ ≠ "bytes32") :
    decode_param typ hexData = some ("unsupported type: " ++ typ) ∧
    rawDataValue typ bytes offset = some ("unsupported type: " ++ typ) ∧
    (rawDataValue typ bytes offset).bind (decode_param typ) =
      some ("unsupported type: " ++ typ) := by
  refine ⟨?_, ?_, ?_⟩
  · simp [decode_param, h1, h2, h3, h4]
  · simp [rawDataValue, h1, h2, h3, h4]
  · simp [rawDataValue, decode_param, h1, h2, h3, h4]

/-- Witness for C8 at the spec's own example type `"string"`. -/
theorem c8_unsupported_type_witness :
    ("string" ≠ "address" ∧ "string" ≠ "uint256" ∧ "string" ≠ "bool" ∧
        "string" ≠ "bytes32") ∧
      decode_param "string" "0xdead" = some ("unsupported type: " ++ "string") ∧
      rawDataValue "string" [] 0 = some ("unsupported type: " ++ "string") ∧
      (rawDataValue "string" [] 0).bind (decode_param "string") =
        some ("unsupported type: " ++ "string") :=
  ⟨⟨by decide, by decide, by decide, by decide⟩,
    c8_unsupported_type "string" "0xdead" [] 0 (by decide) (by decide) (by decide)
      (by decide)⟩

/-- C9: with the parameter store never set, a decode call on a
well-formed log record returns the `ParametersNotSetError` module error
rather than an output record. -/
theorem c9_not_configured (r : RecMap) (flds : String × String × List String × String)
    (h : readLogFields r = some flds) :
    try_transform .unset (.record r) = .moduleError "Parameters have not been set." := by
  obtain ⟨tx, blk, topics, topic0⟩ := flds
  simp [try_transform, h]

/-- Witness for C9 at a concrete well-formed record. -/
theorem c9_not_configured_witness :
    readLogFields exLog = some ("0xabc", "7", ["nope"], "nope") ∧
      try_transform .unset (.record exLog) =
        .moduleError "Parameters have not been set." :=
  ⟨rfl, c9_not_configured exLog _ rfl⟩

/-- C7: the `topic_index` counter, starting at 1 and incremented once per
parameter whether or not it is indexed, makes the topic consumed for an
indexed parameter `topics[1 + k]` where `k` is the parameter's overall
position in declaration order — equivalently, the walk coincides with the
position-indexed decoder. -/
theorem c7_topic_index_by_position (topics : List String) (inputs : List Json) :
    topicsLoop topics inputs 1 [] [] =
      topicsByPosition topics (withPositions 0 inputs) [] [] :=
  topicsLoop_byPosition topics inputs 0 [] []

/-- C4 (amended): when the stored ABI text fails to parse as a list of
definitions, decode raises no error but returns the nil output
(`Ok(None)`) — the input record is dropped, not passed through. -/
theorem c4_malformed_abi_returns_nil (r : RecMap)
    (flds : String × String × List String × String)
    (h : readLogFields r = some flds) :
    try_transform (.set none) (.record r) = Outcome.nil := by
  obtain ⟨tx, blk, topics, topic0⟩ := flds
  simp [try_transform, h]

/-- Witness for the amended C4 at a concrete well-formed record. -/
theorem c4_malformed_abi_returns_nil_witness :
    readLogFields exLog = some ("0xabc", "7", ["nope"], "nope") ∧
      try_transform (.set none) (.record exLog) = Outcome.nil :=
  ⟨rfl, c4_malformed_abi_returns_nil exLog _ rfl⟩

/-- C4 counterexample: with a malformed stored ABI the decode call on the
concrete record `exLog` yields the nil output, not the unchanged input
record the claim promises. -/
theorem c4_counterexample :
    try_transform (.set none) (.record exLog) = Outcome.nil ∧
      Outcome.nil ≠ Outcome.ok exLog :=
  ⟨rfl, by simp⟩

/-- C5 (amended): when no event definition's hash equals `topics[0]`, the
record passes through with no `signature` or `arguments` field and its
existing fields unmodified — except that, whenever the ABI holds at least
one event definition, the fields `hash` and `block` are inserted
(lines 143-144 run before the hash comparison). -/
theorem c5_no_match_inserts_hash_block (r : RecMap) (items : List Json)
    (tx blk : String) (topics : List String) (topic0 : String)
    (h : readLogFields r = some (tx, blk, topics, topic0))
    (hwf : wfAbi items = true)
    (hnm : ∀ it ∈ items, isEvent it = true → hashedOf it ≠ topic0) :
    try_transform (.set (some items)) (.record r) =
      Outcome.ok (if items.any isEvent then insHB r tx blk else r) := by
  have hfind : items.find? (matchesTopic0 topic0) = none := by
    rw [List.find?_eq_none]
    intro it hit
    rw [matchesTopic0]
    cases hE : isEvent it with
    | false => simp
    | true =>
        simp only [Bool.true_and]
        intro hc
        exact hnm it hit hE (eq_of_beq hc)
  have hc := abiLoop_char ⟨tx, blk, topics, topic0⟩ items r hwf
  dsimp only at hc
  rw [hfind] at hc
  simp [try_transform, h, hc]

/-- Witness for the amended C5: an ABI with no event definition, where
the record passes through untouched. -/
theorem c5_no_match_inserts_hash_block_witness :
    readLogFields exLog = some ("0xabc", "7", ["nope"], "nope") ∧ wfAbi [] = true ∧
      try_transform (.set (some [])) (.record exLog) =
        Outcome.ok (if ([] : List Json).any isEvent then insHB exLog "0xabc" "7" else exLog) :=
  ⟨rfl, rfl,
    c5_no_match_inserts_hash_block exLog [] "0xabc" "7" ["nope"] "nope" rfl rfl
      (fun it hit _ => absurd hit (List.not_mem_nil it))⟩

/-- C5 counterexample: a one-event ABI whose hash cannot equal the topic
`"nope"`; the decode call returns the record with `hash` and `block`
fields appended, so the input does not pass through unchanged. -/
theorem c5_counterexample :
    try_transform (.set (some [exEventDef])) (.record exLog) =
      Outcome.ok (exLog ++ [("hash", Json.str "0xabc"), ("block", Json.str "7")]) ∧
      exLog ++ [("hash", Json.str "0xabc"), ("block", Json.str "7")] ≠ exLog := by
  constructor
  · have hpred : ¬ matchesTopic0 "nope" exEventDef = true := by
      rw [matchesTopic0]
      simp only [Bool.and_eq_true]
      rintro ⟨-, hc⟩
      exact hashSigHex_ne_nope (sigOfD exEventDef) (eq_of_beq hc)
    have hfind : [exEventDef].find? (matchesTopic0 "nope") = none := by
      rw [List.find?_cons_of_neg _ hpred, List.find?_nil]
    have hc := abiLoop_char ⟨"0xabc", "7", ["nope"], "nope"⟩ [exEventDef] exLog (by decide)
    dsimp only at hc
    rw [hfind] at hc
    have hrec : try_transform (.set (some [exEventDef])) (.record exLog) =
        Outcome.ok (if [exEventDef].any isEvent then insHB exLog "0xabc" "7" else exLog) := by
      simp [try_transform, show readLogFields exLog = some ("0xabc", "7", ["nope"], "nope") from rfl, hc]
    rw [hrec]
    rfl
  · intro h
    have := congrArg List.length h
    simp [exLog] at this

/-- Rendering an optional bounded value with a `"0"` fallback commutes
with the bound test. -/
theorem matchIfOpt (C : Prop) [Decidable C] (V : Nat) :
    (match (if C then some V else none : Option Nat) with
      | some v => toString v
      | none => "0") = if C then toString V else "0" := by
  by_cases hC : C
  · rw [if_pos hC, if_pos hC]
  · rw [if_neg hC, if_neg hC]

/-- C10: a 64-hex-digit `uint256` slot decodes through
`u128::from_str_radix`: a value of at least `2 ^ 128` overflows, the
error is swallowed and the decoded value is the string `"0"` (not a
truncation to low bits, and not an error); a value below `2 ^ 128`
decodes to its exact decimal string. -/
theorem c10_uint256_u128_range (s : String)
    (hhex : allHexDigits s = true) (hlen : s.length = 64) :
    (2 ^ 128 ≤ hexValOf s → decode_param "uint256" ("0x" ++ s) = some "0") ∧
    (hexValOf s < 2 ^ 128 →
      decode_param "uint256" ("0x" ++ s) = some (toString (hexValOf s))) := by
  obtain ⟨cs⟩ := s
  rcases cs with _ | ⟨a, _ | ⟨b, t⟩⟩
  · simp [String.length] at hlen
  · simp [String.length] at hlen
  · have hall : ∀ c ∈ (a :: b :: t), (hexDigit? c).isSome = true := by
      rw [allHexDigits] at hhex
      exact fun c hc => List.all_eq_true.mp hhex c hc
    have ha : a ≠ '+' := by
      intro h
      subst h
      exact absurd (hall '+' (by simp)) (by decide)
    have hbx : b ≠ 'x' := by
      intro h
      subst h
      exact absurd (hall 'x' (by simp)) (by decide)
    have htrim : trim0x (("0x" ++ String.mk (a :: b :: t)).data) = a :: b :: t := by
      show trim0x ('0' :: 'x' :: a :: b :: t) = a :: b :: t
      rw [trim0x, if_pos ⟨rfl, rfl⟩, trim0x, if_neg (fun hand => hbx hand.2)]
    have hstrip : stripPlus (a :: b :: t) = a :: b :: t := by
      rw [stripPlus]
      exact if_neg ha
    have hmap := mapOpt_eq_some_map hexDigit? 0 (a :: b :: t)
      (List.all_eq_true.mpr hall)
    have hdp : decode_param "uint256" ("0x" ++ String.mk (a :: b :: t)) =
        some (if hexValOf (String.mk (a :: b :: t)) < 2 ^ 128
              then toString (hexValOf (String.mk (a :: b :: t))) else "0") := by
      rw [decode_param]
      rw [if_pos rfl, htrim, fromStrRadix16U128]
      simp [hstrip, hmap, hexValOf]
      exact matchIfOpt _ _
    refine ⟨fun h128 => ?_, fun hlt => ?_⟩
    · rw [hdp, if_neg (not_lt.mpr h128)]
    · rw [hdp, if_pos hlt]

/-- Witness for C10: the all-`f` slot (value `16 ^ 64 - 1 ≥ 2 ^ 128`)
decodes to `"0"`, and the slot `00...01` decodes to `"1"`. -/
theorem c10_uint256_u128_range_witness :
    (allHexDigits sFF = true ∧ sFF.length = 64 ∧ 2 ^ 128 ≤ hexValOf sFF) ∧
      decode_param "uint256" ("0x" ++ sFF) = some "0" ∧
      decode_param "uint256"
          "0x0000000000000000000000000000000000000000000000000000000000000001" =
        some "1" :=
  ⟨⟨by decide, by decide, by decide⟩,
    (c10_uint256_u128_range sFF (by decide) (by decide)).1 (by decide),
    by decide⟩
